import Mathlib

/-!
Verification of the data pipeline of src/app.py (the process_data function and its
helper categorize, lines 77 to 140): geometry dissolution, statistical aggregation,
merge and fill, classification and ranking. The embedding models the two input
tables as lists of rows, pandas float columns as rational numbers, and the pandas
string methods strip and lower as functions on the character list of a string.
Pandas groupby returns group keys sorted; no property proved below depends on the
order of the rows of any table (the spec hands the output table over in no
guaranteed order), so group keys are modelled in first occurrence order via dedup.
-/

/-- Python str.strip of src/app.py lines 81, 82 and 85: remove leading and trailing
whitespace, modelled on the character list of the string. -/
def pyStrip (s : String) : String :=
  ⟨((s.data.dropWhile Char.isWhitespace).reverse.dropWhile Char.isWhitespace).reverse⟩

/-- Python str.lower of src/app.py line 85, modelled on the character list. -/
def pyLower (s : String) : String :=
  ⟨s.data.map Char.toLower⟩

/-- One row of data_stunting.csv: a free text district name and a textual
stunting flag. -/
structure Record where
  nama_kecamatan : String
  stunting_balita : String
deriving DecidableEq, Repr

/-- One raw polygon feature of kecamatan_sidoarjo.geojson, keyed by the district
name column WADMKC. The polygon geometry itself is not modelled: no claim below
depends on geometry values, only on the grouping of features by key performed by
the dissolve step. -/
structure Feature where
  WADMKC : String
deriving DecidableEq, Repr

/-- Normalization of the stunting flag (src/app.py lines 85 to 88): strip, lower,
map the dictionary with keys ya, y, tidak, t, and fillna(0) for every other
value. The resulting column is float valued in the source; it is modelled as a
rational. -/
def normalizeFlag (s : String) : ℚ :=
  let t := pyLower (pyStrip s)
  if t = "ya" then 1
  else if t = "y" then 1
  else if t = "tidak" then 0
  else if t = "t" then 0
  else 0

/-- Rounding to the nearest integer, half rounded up. The source rounds floats,
where .round(2) resolves exact halves to even; no claim below depends on the tie
rule, and exact halves do not arise in the examples used. -/
def pyRound (q : ℚ) : ℤ := ⌊q + 1/2⌋

/-- Series.round(2) of src/app.py line 110: round to two decimal places. -/
def round2 (q : ℚ) : ℚ := ((pyRound (q * 100) : ℤ) : ℚ) / 100

/-- Conversion astype(int) of src/app.py lines 106, 107 and 138: truncation toward
zero. Every value it is applied to in the pipeline is a nonnegative whole
number. -/
def astypeInt (q : ℚ) : ℤ := if 0 ≤ q then ⌊q⌋ else ⌈q⌉

/-- The categorize function of src/app.py lines 113 to 121, a total function of
the rounded percentage to a category and color pair. The spec names the four
tiers No Data (gray), Low (green), Medium (yellow), High (red); the source names
them Tidak Ada Data, Rendah, Sedang, Tinggi. -/
def categorize (percent : ℚ) : String × String :=
  if percent = 0 then ("Tidak Ada Data", "#94a3b8")
  else if percent < 20 then ("Rendah", "#22c55e")
  else if percent < 30 then ("Sedang", "#eab308")
  else ("Tinggi", "#ef4444")

/-- The four category and color pairs of the classification table. -/
def tierTable : List (String × String) :=
  [("Tidak Ada Data", "#94a3b8"), ("Rendah", "#22c55e"),
   ("Sedang", "#eab308"), ("Tinggi", "#ef4444")]

/-- Keys of the dissolved geometry (src/app.py lines 82 and 91): WADMKC values
are stripped, then the features are grouped by key; the group keys are the
distinct stripped values. -/
def dissolveKeys (gdf : List Feature) : List String :=
  (gdf.map (fun f => pyStrip f.WADMKC)).dedup

/-- Group keys of the record aggregation (src/app.py lines 81 and 94): the
distinct stripped district names of the records. -/
def aggKeys (df : List Record) : List String :=
  (df.map (fun r => pyStrip r.nama_kecamatan)).dedup

/-- The normalized flags of the records whose stripped district name equals k:
the column the groupby of src/app.py line 94 aggregates for group k. -/
def groupFlags (df : List Record) (k : String) : List ℚ :=
  (df.filter (fun r => decide (pyStrip r.nama_kecamatan = k))).map
    (fun r => normalizeFlag r.stunting_balita)

/-- One row of agg_data (src/app.py lines 94 to 99): mean, sum and count of the
normalized flag over one group. -/
structure AggRow where
  WADMKC : String
  mean_stunting : ℚ
  jumlah_stunting : ℚ
  jumlah_balita : ℚ
deriving DecidableEq, Repr

/-- The agg_data row for group key k. -/
def aggRowFor (df : List Record) (k : String) : AggRow :=
  { WADMKC := k
    mean_stunting := (groupFlags df k).sum / ((groupFlags df k).length : ℚ)
    jumlah_stunting := (groupFlags df k).sum
    jumlah_balita := ((groupFlags df k).length : ℚ) }

/-- The aggregated statistics table agg_data of src/app.py lines 94 to 99, one
row per group key. -/
def agg_data (df : List Record) : List AggRow :=
  (aggKeys df).map (aggRowFor df)

/-- One row of the merged output table. In the source the rank column does not
exist until the final merge of lines 133 to 138; the merge stage initializes the
field to 0 here and the ranking stage overwrites it for every row. -/
structure SummaryRow where
  WADMKC : String
  mean_stunting : ℚ
  jumlah_stunting : ℤ
  jumlah_balita : ℤ
  mean_stunting_percent : ℚ
  category : String
  color : String
  rank : ℕ
deriving DecidableEq, Repr

/-- Merge and fill for one geometry key (src/app.py lines 102 to 125): the left
join row, with fillna(0) when the key has no statistics row, astype(int) on the
two counts, the rounded percentage and the category and color pair. -/
def fillRow (k : String) (o : Option AggRow) : SummaryRow :=
  let ms : ℚ := (o.map AggRow.mean_stunting).getD 0
  let js : ℚ := (o.map AggRow.jumlah_stunting).getD 0
  let jb : ℚ := (o.map AggRow.jumlah_balita).getD 0
  let pct : ℚ := round2 (ms * 100)
  { WADMKC := k
    mean_stunting := ms
    jumlah_stunting := astypeInt js
    jumlah_balita := astypeInt jb
    mean_stunting_percent := pct
    category := (categorize pct).1
    color := (categorize pct).2
    rank := 0 }

/-- The merged row for geometry key k: the left join of src/app.py line 102
against agg_data, whose keys are unique because agg_data is groupby output. -/
def rowFor (df : List Record) (k : String) : SummaryRow :=
  fillRow k ((agg_data df).find? (fun a => decide (a.WADMKC = k)))

/-- The merged table of src/app.py lines 102 to 125, one row per dissolved
geometry key, before ranking. -/
def merge_fill (df : List Record) (gdf : List Feature) : List SummaryRow :=
  (dissolveKeys gdf).map (rowFor df)

/-- Comparison of the descending sort on the percentage column (src/app.py line
129). The source sorts with pandas sort_values, whose default algorithm is not
documented as stable; the model sorts with a stable insertion sort, and every
theorem below is independent of the order of ties. -/
def pctGe (a b : SummaryRow) : Prop :=
  b.mean_stunting_percent ≤ a.mean_stunting_percent

instance : DecidableRel pctGe :=
  fun a b => inferInstanceAs (Decidable (b.mean_stunting_percent ≤ a.mean_stunting_percent))

instance : IsTotal SummaryRow pctGe :=
  ⟨fun a b => le_total b.mean_stunting_percent a.mean_stunting_percent⟩

instance : IsTrans SummaryRow pctGe :=
  ⟨fun _ _ _ h1 h2 => le_trans h2 h1⟩

/-- merged_with_data (src/app.py line 128): the merged rows with positive
percentage, the only rows that take part in ranking. -/
def merged_with_data (df : List Record) (gdf : List Feature) : List SummaryRow :=
  (merge_fill df gdf).filter (fun r => decide (0 < r.mean_stunting_percent))

/-- merged_with_data after sorting (src/app.py line 129): sorted descending by
percentage. -/
def rankSorted (df : List Record) (gdf : List Feature) : List SummaryRow :=
  List.insertionSort pctGe (merged_with_data df gdf)

/-- Rank assignment and merge back for one row (src/app.py lines 130 to 138):
rank i + 1 when the key of the row occurs at position i of the sorted ranked
subset, rank 0 by fillna(0) otherwise. -/
def assignRank (sorted : List SummaryRow) (r : SummaryRow) : SummaryRow :=
  { r with rank :=
      match sorted.findIdx? (fun s => decide (s.WADMKC = r.WADMKC)) with
      | some i => i + 1
      | none => 0 }

/-- The full pipeline process_data of src/app.py lines 77 to 140. -/
def process_data (df : List Record) (gdf : List Feature) : List SummaryRow :=
  (merge_fill df gdf).map (assignRank (rankSorted df gdf))

/-- Example record table for the witnesses: the scenario of spec section 8,
district A with one affirmative and one negative record, plus a district B with
one affirmative record and a district C with no records. -/
def dfEx : List Record := [⟨"A", "Ya"⟩, ⟨"A", "Tidak"⟩, ⟨"B", "ya"⟩]

/-- Example geometry table for the witnesses. -/
def gdfEx : List Feature := [⟨"A"⟩, ⟨"B"⟩, ⟨"C"⟩]

/-- Expected output row of district A for the example inputs. -/
def rowAEx : SummaryRow := ⟨"A", 1/2, 1, 2, 50, "Tinggi", "#ef4444", 2⟩

/-- Expected output row of district B for the example inputs. -/
def rowBEx : SummaryRow := ⟨"B", 1, 1, 1, 100, "Tinggi", "#ef4444", 1⟩

/-- Expected output row of district C for the example inputs. -/
def rowCEx : SummaryRow := ⟨"C", 0, 0, 0, 0, "Tidak Ada Data", "#94a3b8", 0⟩

/-- Example record table whose only district has no geometry counterpart. -/
def df5 : List Record := [⟨"C", "ya"⟩]

/-- Example geometry table whose only district has no records. -/
def gdf5 : List Feature := [⟨"A"⟩]

/-- Expected output row for df5 and gdf5: the record is dropped and the
geometry key is filled with zeros. -/
def row5Ex : SummaryRow := ⟨"A", 0, 0, 0, 0, "Tidak Ada Data", "#94a3b8", 0⟩

/-- Example record table with whitespace padding on the district name. -/
def df9 : List Record := [⟨" Waru ", "ya"⟩]

/-- Example geometry table for the whitespace scenario. -/
def gdf9 : List Feature := [⟨"Waru"⟩]

/-- Expected output row for df9 and gdf9: the padded record joins the stripped
geometry key. -/
def row9Ex : SummaryRow := ⟨"Waru", 1, 1, 1, 100, "Tinggi", "#ef4444", 1⟩

/-! General lemmas about the pipeline. -/

/-- The normalized flag of every record is 0 or 1. -/
lemma normalizeFlag_zero_or_one (s : String) :
    normalizeFlag s = 0 ∨ normalizeFlag s = 1 := by
  simp only [normalizeFlag]
  split_ifs <;> simp

/-- A list of zeros and ones sums to a natural number bounded by its length. -/
lemma sum_of_zero_or_one (l : List ℚ) (h : ∀ x ∈ l, x = 0 ∨ x = 1) :
    ∃ n : ℕ, l.sum = (n : ℚ) ∧ n ≤ l.length := by
  induction l with
  | nil => exact ⟨0, by simp⟩
  | cons a t ih =>
    obtain ⟨n, hn, hle⟩ := ih (fun x hx => h x (List.mem_cons_of_mem a hx))
    rcases h a (List.mem_cons_self a t) with ha | ha
    · exact ⟨n, by simp [ha, hn], by simpa using Nat.le_succ_of_le hle⟩
    · refine ⟨n + 1, ?_, by simpa using Nat.succ_le_succ hle⟩
      push_cast
      simp [ha, hn]
      ring

/-- Every element of a group flag column is 0 or 1. -/
lemma groupFlags_zero_or_one (df : List Record) (k : String) :
    ∀ x ∈ groupFlags df k, x = 0 ∨ x = 1 := by
  intro x hx
  obtain ⟨r, _, hr⟩ := List.mem_map.1 hx
  exact hr ▸ normalizeFlag_zero_or_one r.stunting_balita

/-- Membership in the aggregation key list. -/
lemma mem_aggKeys (df : List Record) (k : String) :
    k ∈ aggKeys df ↔ ∃ r ∈ df, pyStrip r.nama_kecamatan = k := by
  simp [aggKeys, List.mem_dedup]

/-- Membership in the dissolved geometry key list. -/
lemma mem_dissolveKeys (gdf : List Feature) (k : String) :
    k ∈ dissolveKeys gdf ↔ ∃ f ∈ gdf, pyStrip f.WADMKC = k := by
  simp [dissolveKeys, List.mem_dedup]

/-- The dissolved geometry keys are distinct. -/
lemma nodup_dissolveKeys (gdf : List Feature) : (dissolveKeys gdf).Nodup :=
  List.nodup_dedup _

/-- A group that has a key has at least one row. -/
lemma groupFlags_length_pos (df : List Record) (k : String) (h : k ∈ aggKeys df) :
    0 < (groupFlags df k).length := by
  obtain ⟨r, hr, hk⟩ := (mem_aggKeys df k).1 h
  have : normalizeFlag r.stunting_balita ∈ groupFlags df k := by
    refine List.mem_map.2 ⟨r, ?_, rfl⟩
    simp [List.mem_filter, hr, hk]
  exact List.length_pos.2 (List.ne_nil_of_mem this)

/-- If no record strips to key k, the group flag column of k is empty. -/
lemma groupFlags_eq_nil (df : List Record) (k : String) (h : k ∉ aggKeys df) :
    groupFlags df k = [] := by
  unfold groupFlags
  rw [List.map_eq_nil_iff]
  rw [List.filter_eq_nil_iff]
  intro r hr
  simp only [decide_eq_true_eq]
  intro hk
  exact h ((mem_aggKeys df k).2 ⟨r, hr, hk⟩)

/-- Lookup of a key in a table mapped over a key list. -/
lemma find?_map_aggRowFor (df : List Record) (ks : List String) (k : String) :
    (ks.map (aggRowFor df)).find? (fun a => decide (a.WADMKC = k)) =
      if k ∈ ks then some (aggRowFor df k) else none := by
  induction ks with
  | nil => simp
  | cons k0 t ih =>
    by_cases hk : k0 = k
    · subst hk
      simp [List.find?_cons, aggRowFor]
    · simp only [List.map_cons, List.find?_cons]
      have : (decide ((aggRowFor df k0).WADMKC = k)) = false := by
        simpa [aggRowFor] using hk
      rw [this, ih]
      simp [List.mem_cons, hk, Ne.symm hk]

/-- The left join lookup of src/app.py line 102: a geometry key matches the
agg_data row of the same key exactly when the key is an aggregation group key. -/
lemma find?_agg_data (df : List Record) (k : String) :
    (agg_data df).find? (fun a => decide (a.WADMKC = k)) =
      if k ∈ aggKeys df then some (aggRowFor df k) else none :=
  find?_map_aggRowFor df (aggKeys df) k

/-- The merged row of a key that has matching statistics. -/
lemma rowFor_of_mem (df : List Record) (k : String) (h : k ∈ aggKeys df) :
    rowFor df k = fillRow k (some (aggRowFor df k)) := by
  unfold rowFor
  rw [find?_agg_data, if_pos h]

/-- The merged row of a key that has no matching statistics. -/
lemma rowFor_of_not_mem (df : List Record) (k : String) (h : k ∉ aggKeys df) :
    rowFor df k = fillRow k none := by
  unfold rowFor
  rw [find?_agg_data, if_neg h]

lemma rowFor_WADMKC (df : List Record) (k : String) : (rowFor df k).WADMKC = k := by
  unfold rowFor fillRow
  rfl

lemma assignRank_WADMKC (S : List SummaryRow) (r : SummaryRow) :
    (assignRank S r).WADMKC = r.WADMKC := rfl

lemma assignRank_percent (S : List SummaryRow) (r : SummaryRow) :
    (assignRank S r).mean_stunting_percent = r.mean_stunting_percent := rfl

lemma assignRank_fields (S : List SummaryRow) (r : SummaryRow) :
    (assignRank S r).mean_stunting = r.mean_stunting ∧
    (assignRank S r).jumlah_stunting = r.jumlah_stunting ∧
    (assignRank S r).jumlah_balita = r.jumlah_balita ∧
    (assignRank S r).category = r.category ∧
    (assignRank S r).color = r.color := ⟨rfl, rfl, rfl, rfl, rfl⟩

/-- Shape of the output rows: one per dissolved key. -/
lemma mem_process_data (df : List Record) (gdf : List Feature) (r : SummaryRow) :
    r ∈ process_data df gdf ↔
      ∃ k ∈ dissolveKeys gdf, r = assignRank (rankSorted df gdf) (rowFor df k) := by
  simp only [process_data, merge_fill, List.map_map, List.mem_map, Function.comp]
  constructor
  · rintro ⟨k, hk, rfl⟩; exact ⟨k, hk, rfl⟩
  · rintro ⟨k, hk, rfl⟩; exact ⟨k, hk, rfl⟩

/-- The key column of the merged table is the dissolved key list. -/
lemma merge_fill_map_key (df : List Record) (gdf : List Feature) :
    (merge_fill df gdf).map SummaryRow.WADMKC = dissolveKeys gdf := by
  unfold merge_fill
  rw [List.map_map]
  have : (SummaryRow.WADMKC ∘ rowFor df) = id := by
    funext k; exact rowFor_WADMKC df k
  rw [this, List.map_id]

/-- The key column of the output table is the dissolved key list. -/
lemma process_data_map_key (df : List Record) (gdf : List Feature) :
    (process_data df gdf).map SummaryRow.WADMKC = dissolveKeys gdf := by
  unfold process_data
  rw [List.map_map]
  have : (SummaryRow.WADMKC ∘ assignRank (rankSorted df gdf)) = SummaryRow.WADMKC := by
    funext r; exact assignRank_WADMKC _ r
  rw [this, merge_fill_map_key]

/-- In a list whose keys are distinct, filtering by one key keeps exactly one
element when the key occurs and none otherwise. -/
lemma length_filter_key {α : Type} (f : α → String) (l : List α)
    (h : (l.map f).Nodup) (k : String) :
    (l.filter (fun x => decide (f x = k))).length = if k ∈ l.map f then 1 else 0 := by
  induction l with
  | nil => simp
  | cons a t ih =>
    rw [List.map_cons, List.nodup_cons] at h
    obtain ⟨ha, ht⟩ := h
    by_cases hk : f a = k
    · subst hk
      rw [List.filter_cons, if_pos (by simp)]
      have h0 : f a ∉ t.map f := ha
      rw [List.length_cons, ih ht, if_neg h0]
      simp
    · rw [List.filter_cons, if_neg (by simpa using hk)]
      rw [ih ht]
      by_cases hm : k ∈ t.map f
      · rw [if_pos hm, if_pos (by simp [hm])]
      · rw [if_neg hm, if_neg (by simp [hm, Ne.symm hk])]

/-- Position search by key, with an explicit start index: in a list with distinct
keys, searching for the key of the element at position i finds exactly i. -/
lemma findIdx?_key_aux {α : Type} (f : α → String) :
    ∀ (l : List α), (l.map f).Nodup → ∀ (i : ℕ) (hi : i < l.length) (s : ℕ),
      List.findIdx? (fun x => decide (f x = f (l.get ⟨i, hi⟩))) l s = some (s + i) := by
  intro l
  induction l with
  | nil => intro _ i hi; exact absurd hi (by simp)
  | cons a t ih =>
    intro h i hi s
    rw [List.map_cons, List.nodup_cons] at h
    obtain ⟨ha, ht⟩ := h
    match i with
    | 0 =>
      rw [List.findIdx?_cons, if_pos (by simp)]
      simp
    | Nat.succ j =>
      have hj : j < t.length := by simpa using hi
      have hget : (a :: t).get ⟨j + 1, hi⟩ = t.get ⟨j, hj⟩ := rfl
      rw [hget]
      have hne : f a ≠ f (t.get ⟨j, hj⟩) := by
        intro hEq
        exact ha (hEq ▸ List.mem_map.2 ⟨t.get ⟨j, hj⟩, List.get_mem t j hj, rfl⟩)
      rw [List.findIdx?_cons, if_neg (by simpa using hne), ih ht j hj (s + 1)]
      congr 1
      omega

/-- Position search by key for the element at position i of a list with distinct
keys. -/
lemma findIdx?_key {α : Type} (f : α → String) (l : List α)
    (h : (l.map f).Nodup) (i : ℕ) (hi : i < l.length) :
    List.findIdx? (fun x => decide (f x = f (l.get ⟨i, hi⟩))) l = some i := by
  have := findIdx?_key_aux f l h i hi 0
  simpa using this

/-- Position search for a key that does not occur fails, for any start index. -/
lemma findIdx?_key_none_aux {α : Type} (f : α → String) (k : String) :
    ∀ (l : List α), k ∉ l.map f → ∀ s : ℕ,
      List.findIdx? (fun x => decide (f x = k)) l s = none := by
  intro l
  induction l with
  | nil => intro _ _; rfl
  | cons a t ih =>
    intro h s
    rw [List.map_cons] at h
    have ha : f a ≠ k := fun hEq => h (by simp [hEq])
    have ht : k ∉ t.map f := fun hm => h (by simp [hm])
    rw [List.findIdx?_cons, if_neg (by simpa using ha), ih ht (s + 1)]

/-- Position search for a key that does not occur fails. -/
lemma findIdx?_key_none {α : Type} (f : α → String) (k : String) (l : List α)
    (h : k ∉ l.map f) :
    List.findIdx? (fun x => decide (f x = k)) l = none :=
  findIdx?_key_none_aux f k l h 0

/-- The rounded value of a nonnegative input is nonnegative. -/
lemma round2_nonneg (q : ℚ) (h : 0 ≤ q) : 0 ≤ round2 q := by
  unfold round2 pyRound
  have h1 : (0 : ℤ) ≤ ⌊q * 100 + 1/2⌋ := by
    rw [Int.le_floor]
    push_cast
    nlinarith
  positivity

/-- The rounded value of an input bounded by 100 is bounded by 100. -/
lemma round2_le_100 (q : ℚ) (h : q ≤ 100) : round2 q ≤ 100 := by
  unfold round2 pyRound
  rw [div_le_iff₀ (by norm_num : (0:ℚ) < 100)]
  have h2 : ⌊q * 100 + 1/2⌋ ≤ (10000 : ℤ) := by
    have h3 : q * 100 + 1/2 ≤ (10000 : ℚ) + 1/2 := by linarith
    calc ⌊q * 100 + 1/2⌋ ≤ ⌊(10000 : ℚ) + 1/2⌋ := Int.floor_le_floor h3
      _ = 10000 := by norm_num
  calc ((⌊q * 100 + 1/2⌋ : ℤ) : ℚ) ≤ ((10000 : ℤ) : ℚ) := by exact_mod_cast h2
    _ = 100 * 100 := by norm_num

lemma round2_zero : round2 0 = 0 := by
  unfold round2 pyRound
  norm_num

lemma astypeInt_natCast (n : ℕ) : astypeInt (n : ℚ) = (n : ℤ) := by
  simp [astypeInt]

lemma astypeInt_zero : astypeInt 0 = 0 := by
  simp [astypeInt]

/-- The filled row of a key with no statistics. -/
lemma fillRow_none_eq (k : String) :
    fillRow k none = ⟨k, 0, 0, 0, 0, "Tidak Ada Data", "#94a3b8", 0⟩ := by
  simp [fillRow, round2_zero, astypeInt_zero, categorize]

/-- Every value of categorize is one of the four pairs of the policy table. -/
lemma categorize_mem_tierTable (p : ℚ) :
    ((categorize p).1, (categorize p).2) ∈ tierTable := by
  unfold categorize
  split_ifs <;> simp [tierTable]

/-- C4: outcome flag normalization strips and lowercases the textual flag, maps
the affirmative set (ya, y) to 1, the negative set (tidak, t) to 0, and every
other value, the unrecognized value maybe included, to 0; it is a total function,
so no input raises, and an unrecognized flag contributes 0 to the case count. -/
theorem C4_flag_normalization (s : String) :
    ((pyLower (pyStrip s) = "ya" ∨ pyLower (pyStrip s) = "y") → normalizeFlag s = 1) ∧
    ((pyLower (pyStrip s) = "tidak" ∨ pyLower (pyStrip s) = "t") → normalizeFlag s = 0) ∧
    ((pyLower (pyStrip s) ≠ "ya" ∧ pyLower (pyStrip s) ≠ "y") → normalizeFlag s = 0) ∧
    (normalizeFlag s = 0 ∨ normalizeFlag s = 1) := by
  refine ⟨?_, ?_, ?_, normalizeFlag_zero_or_one s⟩
  · rintro (h | h) <;> simp [normalizeFlag, h]
  · rintro (h | h) <;> simp [normalizeFlag, h]
  · rintro ⟨h1, h2⟩
    simp only [normalizeFlag, if_neg h1, if_neg h2]
    split_ifs <;> rfl

/-- Witness for C4 at the unrecognized flag maybe and the affirmative flag Ya
with whitespace padding. -/
theorem C4_flag_normalization_witness :
    normalizeFlag "maybe" = 0 ∧ normalizeFlag " Ya " = 1 :=
  ⟨(C4_flag_normalization "maybe").2.2.1 (by decide),
   (C4_flag_normalization " Ya ").1 (Or.inl (by decide))⟩

/-- C1: classification is a deterministic total function of the rounded
percentage into exactly four tier and color pairs, with 0 mapped to the gray
no data tier, (0, 20) to the green low tier, [20, 30) to the yellow medium
tier, [30, ∞) to the red high tier; the boundary values 20 and 30 fall into
the medium and high tiers, and every output row carries one of the four
pairs. -/
theorem C1_classification :
    (∀ p : ℚ,
      (p = 0 → categorize p = ("Tidak Ada Data", "#94a3b8")) ∧
      (0 < p → p < 20 → categorize p = ("Rendah", "#22c55e")) ∧
      (20 ≤ p → p < 30 → categorize p = ("Sedang", "#eab308")) ∧
      (30 ≤ p → categorize p = ("Tinggi", "#ef4444"))) ∧
    categorize 20 = ("Sedang", "#eab308") ∧
    categorize 30 = ("Tinggi", "#ef4444") ∧
    (∀ (df : List Record) (gdf : List Feature), ∀ r ∈ process_data df gdf,
      (r.category, r.color) ∈ tierTable) := by
  refine ⟨fun p => ⟨?_, ?_, ?_, ?_⟩, by norm_num [categorize], by norm_num [categorize], ?_⟩
  · intro h
    simp [categorize, h]
  · intro h0 h20
    rw [categorize, if_neg h0.ne', if_pos h20]
  · intro h20 h30
    rw [categorize, if_neg (by linarith : p ≠ 0), if_neg (not_lt.2 h20), if_pos h30]
  · intro h30
    rw [categorize, if_neg (by linarith : p ≠ 0), if_neg (by linarith : ¬p < 20),
      if_neg (by linarith : ¬p < 30)]
  · intro df gdf r hr
    obtain ⟨k, _, rfl⟩ := (mem_process_data df gdf r).1 hr
    have hc : (assignRank (rankSorted df gdf) (rowFor df k)).category = (rowFor df k).category := rfl
    have hco : (assignRank (rankSorted df gdf) (rowFor df k)).color = (rowFor df k).color := rfl
    rw [hc, hco]
    unfold rowFor fillRow
    exact categorize_mem_tierTable _

/-- C2: every distinct key of the dissolved geometry appears exactly once as an
output row, for all inputs; neither the left join with the statistics nor the
rank merge back drops or duplicates a key. -/
theorem C2_key_cardinality (df : List Record) (gdf : List Feature) :
    (process_data df gdf).map SummaryRow.WADMKC = dissolveKeys gdf ∧
    (dissolveKeys gdf).Nodup ∧
    ∀ k : String,
      ((process_data df gdf).filter (fun r => decide (r.WADMKC = k))).length =
        if k ∈ dissolveKeys gdf then 1 else 0 := by
  refine ⟨process_data_map_key df gdf, nodup_dissolveKeys gdf, fun k => ?_⟩
  have h := length_filter_key SummaryRow.WADMKC (process_data df gdf)
    (by rw [process_data_map_key]; exact nodup_dissolveKeys gdf) k
  rwa [process_data_map_key] at h

/-- The merged row of a key with matching statistics, written with explicit
fields. -/
lemma rowFor_mem_eq (df : List Record) (k : String) (h : k ∈ aggKeys df) :
    rowFor df k =
      { WADMKC := k
        mean_stunting := (groupFlags df k).sum / ((groupFlags df k).length : ℚ)
        jumlah_stunting := astypeInt (groupFlags df k).sum
        jumlah_balita := astypeInt ((groupFlags df k).length : ℚ)
        mean_stunting_percent :=
          round2 ((groupFlags df k).sum / ((groupFlags df k).length : ℚ) * 100)
        category :=
          (categorize (round2 ((groupFlags df k).sum / ((groupFlags df k).length : ℚ) * 100))).1
        color :=
          (categorize (round2 ((groupFlags df k).sum / ((groupFlags df k).length : ℚ) * 100))).2
        rank := 0 } := by
  rw [rowFor_of_mem df k h]
  rfl

/-- C5: a dissolved geometry key with no matching record receives the explicit
fill mean 0, case count 0, subject count 0, and a record key with no geometry
counterpart yields no output row at all, without an error in either case. -/
theorem C5_fill_and_drop (df : List Record) (gdf : List Feature) :
    (∀ r ∈ process_data df gdf,
      (∀ rec ∈ df, pyStrip rec.nama_kecamatan ≠ r.WADMKC) →
        r.mean_stunting = 0 ∧ r.jumlah_stunting = 0 ∧ r.jumlah_balita = 0) ∧
    (∀ k : String, k ∉ dissolveKeys gdf →
      (process_data df gdf).filter (fun r => decide (r.WADMKC = k)) = []) := by
  constructor
  · intro r hr hnone
    obtain ⟨k, hk, rfl⟩ := (mem_process_data df gdf r).1 hr
    have hkey : (assignRank (rankSorted df gdf) (rowFor df k)).WADMKC = k := by
      rw [assignRank_WADMKC, rowFor_WADMKC]
    rw [hkey] at hnone
    have hnotmem : k ∉ aggKeys df := by
      intro hmem
      obtain ⟨rec, hrec, hstrip⟩ := (mem_aggKeys df k).1 hmem
      exact hnone rec hrec hstrip
    rw [rowFor_of_not_mem df k hnotmem, fillRow_none_eq]
    exact ⟨rfl, rfl, rfl⟩
  · intro k hk
    rw [List.filter_eq_nil_iff]
    intro r hr
    simp only [decide_eq_true_eq]
    intro hkey
    obtain ⟨k0, hk0, rfl⟩ := (mem_process_data df gdf r).1 hr
    have h0 : (assignRank (rankSorted df gdf) (rowFor df k0)).WADMKC = k0 := by
      rw [assignRank_WADMKC, rowFor_WADMKC]
    rw [h0] at hkey
    exact hk (hkey ▸ hk0)

/-- C9: for every output row, the subject count is the number of records whose
stripped district name equals the key of the row, compared as exact strings
with no case folding; so a record padded with whitespace joins its geometry
key instead of being dropped. -/
theorem C9_trim_join (df : List Record) (gdf : List Feature) :
    ∀ r ∈ process_data df gdf,
      r.jumlah_balita =
        ((df.filter (fun rec => decide (pyStrip rec.nama_kecamatan = r.WADMKC))).length : ℤ) := by
  intro r hr
  obtain ⟨k, hk, rfl⟩ := (mem_process_data df gdf r).1 hr
  have hkey : (assignRank (rankSorted df gdf) (rowFor df k)).WADMKC = k := by
    rw [assignRank_WADMKC, rowFor_WADMKC]
  rw [hkey]
  have hjb : (assignRank (rankSorted df gdf) (rowFor df k)).jumlah_balita =
      (rowFor df k).jumlah_balita := rfl
  rw [hjb]
  have hlen : (groupFlags df k).length =
      (df.filter (fun rec => decide (pyStrip rec.nama_kecamatan = k))).length := by
    unfold groupFlags
    rw [List.length_map]
  by_cases hmem : k ∈ aggKeys df
  · rw [rowFor_mem_eq df k hmem]
    show astypeInt ((groupFlags df k).length : ℚ) = _
    rw [astypeInt_natCast, hlen]
  · rw [rowFor_of_not_mem df k hmem, fillRow_none_eq]
    show (0 : ℤ) = _
    rw [← hlen, groupFlags_eq_nil df k hmem]
    rfl

/-- C10: for every output row, the case count is the sum of the per record
flags, each 0 or 1, over exactly the subject count records matched to the key
of the row, hence 0 ≤ case count ≤ subject count, and the zero fill preserves
the bound. -/
theorem C10_case_count_bounds (df : List Record) (gdf : List Feature) :
    ∀ r ∈ process_data df gdf,
      0 ≤ r.jumlah_stunting ∧ r.jumlah_stunting ≤ r.jumlah_balita ∧
      (r.jumlah_stunting : ℚ) = (groupFlags df r.WADMKC).sum ∧
      (r.jumlah_balita : ℚ) = ((groupFlags df r.WADMKC).length : ℚ) ∧
      ∀ x ∈ groupFlags df r.WADMKC, x = 0 ∨ x = 1 := by
  intro r hr
  obtain ⟨k, hk, rfl⟩ := (mem_process_data df gdf r).1 hr
  have hkey : (assignRank (rankSorted df gdf) (rowFor df k)).WADMKC = k := by
    rw [assignRank_WADMKC, rowFor_WADMKC]
  have hjs : (assignRank (rankSorted df gdf) (rowFor df k)).jumlah_stunting =
      (rowFor df k).jumlah_stunting := rfl
  have hjb : (assignRank (rankSorted df gdf) (rowFor df k)).jumlah_balita =
      (rowFor df k).jumlah_balita := rfl
  rw [hkey, hjs, hjb]
  obtain ⟨n, hsum, hle⟩ := sum_of_zero_or_one (groupFlags df k) (groupFlags_zero_or_one df k)
  by_cases hmem : k ∈ aggKeys df
  · rw [rowFor_mem_eq df k hmem]
    refine ⟨?_, ?_, ?_, ?_, groupFlags_zero_or_one df k⟩
    · show (0 : ℤ) ≤ astypeInt (groupFlags df k).sum
      rw [hsum, astypeInt_natCast]
      exact Int.natCast_nonneg n
    · show astypeInt (groupFlags df k).sum ≤ astypeInt ((groupFlags df k).length : ℚ)
      rw [hsum, astypeInt_natCast, astypeInt_natCast]
      exact_mod_cast hle
    · show ((astypeInt (groupFlags df k).sum : ℤ) : ℚ) = (groupFlags df k).sum
      rw [hsum, astypeInt_natCast]
      push_cast
      rfl
    · show ((astypeInt ((groupFlags df k).length : ℚ) : ℤ) : ℚ) = ((groupFlags df k).length : ℚ)
      rw [astypeInt_natCast]
      push_cast
      rfl
  · rw [rowFor_of_not_mem df k hmem, fillRow_none_eq]
    have hnil := groupFlags_eq_nil df k hmem
    refine ⟨le_refl 0, le_refl 0, ?_, ?_, groupFlags_zero_or_one df k⟩
    · simp [hnil]
    · simp [hnil]

/-- C6: for every output row the percentage lies in [0, 100]; it equals the
case count divided by the subject count, times 100, rounded to two decimals,
when the subject count is positive, and 0 when the subject count is 0. -/
theorem C6_rate_percent (df : List Record) (gdf : List Feature) :
    ∀ r ∈ process_data df gdf,
      (0 ≤ r.mean_stunting_percent ∧ r.mean_stunting_percent ≤ 100) ∧
      (0 < r.jumlah_balita →
        r.mean_stunting_percent =
          round2 ((r.jumlah_stunting : ℚ) / (r.jumlah_balita : ℚ) * 100)) ∧
      (r.jumlah_balita = 0 → r.mean_stunting_percent = 0) := by
  intro r hr
  obtain ⟨k, hk, rfl⟩ := (mem_process_data df gdf r).1 hr
  have hpct : (assignRank (rankSorted df gdf) (rowFor df k)).mean_stunting_percent =
      (rowFor df k).mean_stunting_percent := rfl
  have hjs : (assignRank (rankSorted df gdf) (rowFor df k)).jumlah_stunting =
      (rowFor df k).jumlah_stunting := rfl
  have hjb : (assignRank (rankSorted df gdf) (rowFor df k)).jumlah_balita =
      (rowFor df k).jumlah_balita := rfl
  rw [hpct, hjs, hjb]
  obtain ⟨n, hsum, hle⟩ := sum_of_zero_or_one (groupFlags df k) (groupFlags_zero_or_one df k)
  by_cases hmem : k ∈ aggKeys df
  · have hpos := groupFlags_length_pos df k hmem
    have hlpos : (0 : ℚ) < ((groupFlags df k).length : ℚ) := by exact_mod_cast hpos
    have hmean0 : 0 ≤ (groupFlags df k).sum / ((groupFlags df k).length : ℚ) := by
      rw [hsum]
      positivity
    have hmean1 : (groupFlags df k).sum / ((groupFlags df k).length : ℚ) ≤ 1 := by
      rw [div_le_one hlpos, hsum]
      exact_mod_cast hle
    rw [rowFor_mem_eq df k hmem]
    refine ⟨⟨?_, ?_⟩, ?_, ?_⟩
    · show 0 ≤ round2 ((groupFlags df k).sum / ((groupFlags df k).length : ℚ) * 100)
      exact round2_nonneg _ (by nlinarith)
    · show round2 ((groupFlags df k).sum / ((groupFlags df k).length : ℚ) * 100) ≤ 100
      exact round2_le_100 _ (by nlinarith)
    · intro _
      show round2 ((groupFlags df k).sum / ((groupFlags df k).length : ℚ) * 100) =
        round2 (((astypeInt (groupFlags df k).sum : ℤ) : ℚ) /
          ((astypeInt ((groupFlags df k).length : ℚ) : ℤ) : ℚ) * 100)
      rw [hsum, astypeInt_natCast, astypeInt_natCast]
      push_cast
      rfl
    · intro h0
      exfalso
      have : astypeInt ((groupFlags df k).length : ℚ) = 0 := h0
      rw [astypeInt_natCast] at this
      have hz : (groupFlags df k).length = 0 := by exact_mod_cast this
      omega
  · rw [rowFor_of_not_mem df k hmem, fillRow_none_eq]
    refine ⟨⟨le_refl 0, by norm_num⟩, ?_, fun _ => rfl⟩
    intro h
    exact absurd h (lt_irrefl 0)

/-- The key column of the merged table has no duplicates. -/
lemma nodup_key_merge_fill (df : List Record) (gdf : List Feature) :
    ((merge_fill df gdf).map SummaryRow.WADMKC).Nodup := by
  rw [merge_fill_map_key]
  exact nodup_dissolveKeys gdf

/-- The key column of the ranked subset has no duplicates. -/
lemma nodup_key_merged_with_data (df : List Record) (gdf : List Feature) :
    ((merged_with_data df gdf).map SummaryRow.WADMKC).Nodup := by
  have hsub : ((merged_with_data df gdf).map SummaryRow.WADMKC).Sublist
      ((merge_fill df gdf).map SummaryRow.WADMKC) :=
    List.Sublist.map _ (List.filter_sublist _)
  exact List.Nodup.sublist hsub (nodup_key_merge_fill df gdf)

/-- Sorting the ranked subset permutes it. -/
lemma perm_rankSorted (df : List Record) (gdf : List Feature) :
    (rankSorted df gdf).Perm (merged_with_data df gdf) :=
  List.perm_insertionSort pctGe _

/-- The key column of the sorted ranked subset has no duplicates. -/
lemma nodup_key_rankSorted (df : List Record) (gdf : List Feature) :
    ((rankSorted df gdf).map SummaryRow.WADMKC).Nodup :=
  ((perm_rankSorted df gdf).symm.map _).nodup (nodup_key_merged_with_data df gdf)

/-- The sorted ranked subset is pairwise descending in percentage. -/
lemma sorted_rankSorted (df : List Record) (gdf : List Feature) :
    (rankSorted df gdf).Pairwise pctGe :=
  List.sorted_insertionSort pctGe (merged_with_data df gdf)

/-- The row at position i of the sorted ranked subset receives rank i + 1. -/
lemma rank_of_get_rankSorted (df : List Record) (gdf : List Feature) (i : ℕ)
    (hi : i < (rankSorted df gdf).length) :
    (assignRank (rankSorted df gdf) ((rankSorted df gdf).get ⟨i, hi⟩)).rank = i + 1 := by
  have h : (rankSorted df gdf).findIdx?
      (fun s => decide (s.WADMKC = ((rankSorted df gdf).get ⟨i, hi⟩).WADMKC)) = some i :=
    findIdx?_key SummaryRow.WADMKC (rankSorted df gdf) (nodup_key_rankSorted df gdf) i hi
  show (match (rankSorted df gdf).findIdx?
      (fun s => decide (s.WADMKC = ((rankSorted df gdf).get ⟨i, hi⟩).WADMKC)) with
    | some j => j + 1
    | none => 0) = i + 1
  rw [h]

/-- The ranked rows of the output are the rank assignment images of the ranked
subset. -/
lemma filter_process_data (df : List Record) (gdf : List Feature) :
    (process_data df gdf).filter (fun r => decide (0 < r.mean_stunting_percent)) =
      (merged_with_data df gdf).map (assignRank (rankSorted df gdf)) := by
  show ((merge_fill df gdf).map (assignRank (rankSorted df gdf))).filter
      (fun r => decide (0 < r.mean_stunting_percent)) = _
  rw [List.filter_map]
  rfl

/-- The multiset of ranks of the ranked output rows is exactly 1..K. -/
lemma rank_values_perm (df : List Record) (gdf : List Feature) :
    (((process_data df gdf).filter (fun r => decide (0 < r.mean_stunting_percent))).map
      SummaryRow.rank).Perm
      (List.range' 1 ((process_data df gdf).filter
        (fun r => decide (0 < r.mean_stunting_percent))).length) := by
  rw [filter_process_data, List.map_map, List.length_map]
  have hperm : ((merged_with_data df gdf).map
      (SummaryRow.rank ∘ assignRank (rankSorted df gdf))).Perm
      ((rankSorted df gdf).map (SummaryRow.rank ∘ assignRank (rankSorted df gdf))) :=
    (perm_rankSorted df gdf).symm.map _
  have heq : (rankSorted df gdf).map (SummaryRow.rank ∘ assignRank (rankSorted df gdf)) =
      List.range' 1 (rankSorted df gdf).length := by
    apply List.ext_get
    · simp [List.length_range']
    · intro i h1 h2
      rw [List.get_map]
      simp only [Function.comp_apply]
      rw [rank_of_get_rankSorted df gdf i (by simpa using h1)]
      rw [List.get_eq_getElem, List.getElem_range']
      show i + 1 = 1 + 1 * i
      omega
  have hlen : (rankSorted df gdf).length = (merged_with_data df gdf).length :=
    (perm_rankSorted df gdf).length_eq
  refine hperm.trans ?_
  rw [heq, hlen]

/-- Strict rank ordering: a row with strictly greater percentage has a strictly
smaller rank. -/
lemma rank_strict_aux (df : List Record) (gdf : List Feature) :
    ∀ r ∈ process_data df gdf, ∀ s ∈ process_data df gdf,
      0 < r.mean_stunting_percent → 0 < s.mean_stunting_percent →
      s.mean_stunting_percent < r.mean_stunting_percent → r.rank < s.rank := by
  intro r hr s hs h0r h0s hlt
  have hr' : r ∈ (merge_fill df gdf).map (assignRank (rankSorted df gdf)) := hr
  have hs' : s ∈ (merge_fill df gdf).map (assignRank (rankSorted df gdf)) := hs
  obtain ⟨m, hm, rfl⟩ := List.mem_map.1 hr'
  obtain ⟨m', hm', rfl⟩ := List.mem_map.1 hs'
  have h0m : 0 < m.mean_stunting_percent := h0r
  have h0m' : 0 < m'.mean_stunting_percent := h0s
  have hltm : m'.mean_stunting_percent < m.mean_stunting_percent := hlt
  have hmW : m ∈ merged_with_data df gdf :=
    List.mem_filter.2 ⟨hm, by simp only [decide_eq_true_eq]; exact h0m⟩
  have hmW' : m' ∈ merged_with_data df gdf :=
    List.mem_filter.2 ⟨hm', by simp only [decide_eq_true_eq]; exact h0m'⟩
  have hmS : m ∈ rankSorted df gdf := ((perm_rankSorted df gdf).mem_iff).2 hmW
  have hmS' : m' ∈ rankSorted df gdf := ((perm_rankSorted df gdf).mem_iff).2 hmW'
  obtain ⟨⟨i, hi⟩, hgi⟩ := List.get_of_mem hmS
  obtain ⟨⟨j, hj⟩, hgj⟩ := List.get_of_mem hmS'
  have hrank_m : (assignRank (rankSorted df gdf) m).rank = i + 1 := by
    rw [← hgi]
    exact rank_of_get_rankSorted df gdf i hi
  have hrank_m' : (assignRank (rankSorted df gdf) m').rank = j + 1 := by
    rw [← hgj]
    exact rank_of_get_rankSorted df gdf j hj
  rw [hrank_m, hrank_m']
  have hij : i < j := by
    rcases Nat.lt_trichotomy i j with h | h | h
    · exact h
    · exfalso
      subst h
      have hmm : m = m' := by rw [← hgi, ← hgj]
      rw [hmm] at hltm
      exact lt_irrefl _ hltm
    · exfalso
      have hp := List.pairwise_iff_get.1 (sorted_rankSorted df gdf) ⟨j, hj⟩ ⟨i, hi⟩ h
      rw [hgi, hgj] at hp
      have hp2 : m.mean_stunting_percent ≤ m'.mean_stunting_percent := hp
      exact absurd hltm (not_lt.2 hp2)
  omega

/-- Rows with zero percentage receive rank 0. -/
lemma rank_zero_aux (df : List Record) (gdf : List Feature) :
    ∀ r ∈ process_data df gdf, r.mean_stunting_percent = 0 → r.rank = 0 := by
  intro r hr h0
  have hr' : r ∈ (merge_fill df gdf).map (assignRank (rankSorted df gdf)) := hr
  obtain ⟨m, hm, rfl⟩ := List.mem_map.1 hr'
  have h0m : m.mean_stunting_percent = 0 := h0
  have hnot : m.WADMKC ∉ (rankSorted df gdf).map SummaryRow.WADMKC := by
    intro hmem
    obtain ⟨x, hxS, hxk⟩ := List.mem_map.1 hmem
    have hxW : x ∈ merged_with_data df gdf := ((perm_rankSorted df gdf).mem_iff).1 hxS
    have hxM : x ∈ merge_fill df gdf := (List.mem_filter.1 hxW).1
    have hxp : 0 < x.mean_stunting_percent := by
      have := (List.mem_filter.1 hxW).2
      simpa using this
    have hxm : x = m := List.inj_on_of_nodup_map (nodup_key_merge_fill df gdf) hxM hm hxk
    rw [hxm, h0m] at hxp
    exact lt_irrefl 0 hxp
  have hfind := findIdx?_key_none SummaryRow.WADMKC m.WADMKC (rankSorted df gdf) hnot
  show (match (rankSorted df gdf).findIdx? (fun s => decide (s.WADMKC = m.WADMKC)) with
    | some j => j + 1
    | none => 0) = 0
  rw [hfind]

/-- C3: the rank values of the output rows with positive percentage form
exactly the contiguous sequence 1..K, K the number of such rows, assigned in
descending order of percentage (a strictly greater percentage gives a strictly
smaller rank), and every row with percentage 0 has rank 0. -/
theorem C3_ranking (df : List Record) (gdf : List Feature) :
    ((((process_data df gdf).filter
        (fun r => decide (0 < r.mean_stunting_percent))).map SummaryRow.rank).Perm
      (List.range' 1 ((process_data df gdf).filter
        (fun r => decide (0 < r.mean_stunting_percent))).length)) ∧
    (∀ r ∈ process_data df gdf, ∀ s ∈ process_data df gdf,
      0 < r.mean_stunting_percent → 0 < s.mean_stunting_percent →
      s.mean_stunting_percent < r.mean_stunting_percent → r.rank < s.rank) ∧
    (∀ r ∈ process_data df gdf, r.mean_stunting_percent = 0 → r.rank = 0) :=
  ⟨rank_values_perm df gdf, rank_strict_aux df gdf, rank_zero_aux df gdf⟩

/-- C8: the pipeline is a pure function of its two inputs, so two runs on
identical inputs produce identical tables. -/
theorem C8_deterministic (df : List Record) (gdf : List Feature)
    (t1 t2 : List SummaryRow) (h1 : t1 = process_data df gdf)
    (h2 : t2 = process_data df gdf) : t1 = t2 :=
  h1.trans h2.symm

/-! Evaluation of the pipeline on the example inputs. -/

lemma aggRowFor_dfEx_A : aggRowFor dfEx "A" = ⟨"A", 1/2, 1, 2⟩ := by
  have h : groupFlags dfEx "A" = [1, 0] := rfl
  unfold aggRowFor
  rw [h]
  norm_num

lemma aggRowFor_dfEx_B : aggRowFor dfEx "B" = ⟨"B", 1, 1, 1⟩ := by
  have h : groupFlags dfEx "B" = [1] := rfl
  unfold aggRowFor
  rw [h]
  norm_num

lemma agg_data_dfEx : agg_data dfEx = [⟨"A", 1/2, 1, 2⟩, ⟨"B", 1, 1, 1⟩] := by
  have h : agg_data dfEx = [aggRowFor dfEx "A", aggRowFor dfEx "B"] := rfl
  rw [h, aggRowFor_dfEx_A, aggRowFor_dfEx_B]

lemma fillRow_A_eval :
    fillRow "A" (some ⟨"A", 1/2, 1, 2⟩) = ⟨"A", 1/2, 1, 2, 50, "Tinggi", "#ef4444", 0⟩ := by
  show (⟨"A", 1/2, astypeInt 1, astypeInt 2, round2 (1/2 * 100),
      (categorize (round2 (1/2 * 100))).1, (categorize (round2 (1/2 * 100))).2, 0⟩ :
    SummaryRow) = _
  have hpct : round2 ((1:ℚ)/2 * 100) = 50 := by norm_num [round2, pyRound]
  have hcat : categorize (50:ℚ) = ("Tinggi", "#ef4444") := by norm_num [categorize]
  have h1 : astypeInt (1:ℚ) = 1 := by norm_num [astypeInt]
  have h2 : astypeInt (2:ℚ) = 2 := by norm_num [astypeInt]
  rw [hpct, hcat, h1, h2]

lemma fillRow_B_eval :
    fillRow "B" (some ⟨"B", 1, 1, 1⟩) = ⟨"B", 1, 1, 1, 100, "Tinggi", "#ef4444", 0⟩ := by
  show (⟨"B", 1, astypeInt 1, astypeInt 1, round2 (1 * 100),
      (categorize (round2 (1 * 100))).1, (categorize (round2 (1 * 100))).2, 0⟩ :
    SummaryRow) = _
  have hpct : round2 ((1:ℚ) * 100) = 100 := by norm_num [round2, pyRound]
  have hcat : categorize (100:ℚ) = ("Tinggi", "#ef4444") := by norm_num [categorize]
  have h1 : astypeInt (1:ℚ) = 1 := by norm_num [astypeInt]
  rw [hpct, hcat, h1]

lemma merge_fill_dfEx : merge_fill dfEx gdfEx =
    [⟨"A", 1/2, 1, 2, 50, "Tinggi", "#ef4444", 0⟩,
     ⟨"B", 1, 1, 1, 100, "Tinggi", "#ef4444", 0⟩,
     ⟨"C", 0, 0, 0, 0, "Tidak Ada Data", "#94a3b8", 0⟩] := by
  have h : merge_fill dfEx gdfEx = [rowFor dfEx "A", rowFor dfEx "B", rowFor dfEx "C"] := rfl
  have hA : rowFor dfEx "A" = fillRow "A" (some ⟨"A", 1/2, 1, 2⟩) := by
    unfold rowFor
    rw [agg_data_dfEx]
    rfl
  have hB : rowFor dfEx "B" = fillRow "B" (some ⟨"B", 1, 1, 1⟩) := by
    unfold rowFor
    rw [agg_data_dfEx]
    rfl
  have hC : rowFor dfEx "C" = fillRow "C" none := by
    unfold rowFor
    rw [agg_data_dfEx]
    rfl
  rw [h, hA, hB, hC, fillRow_A_eval, fillRow_B_eval, fillRow_none_eq]

lemma merged_with_data_dfEx : merged_with_data dfEx gdfEx =
    [⟨"A", 1/2, 1, 2, 50, "Tinggi", "#ef4444", 0⟩,
     ⟨"B", 1, 1, 1, 100, "Tinggi", "#ef4444", 0⟩] := by
  unfold merged_with_data
  rw [merge_fill_dfEx]
  norm_num [List.filter_cons, decide_eq_true_eq]

lemma rankSorted_dfEx : rankSorted dfEx gdfEx =
    [⟨"B", 1, 1, 1, 100, "Tinggi", "#ef4444", 0⟩,
     ⟨"A", 1/2, 1, 2, 50, "Tinggi", "#ef4444", 0⟩] := by
  unfold rankSorted
  rw [merged_with_data_dfEx]
  norm_num [List.insertionSort, List.orderedInsert, pctGe]

lemma process_data_dfEx : process_data dfEx gdfEx = [rowAEx, rowBEx, rowCEx] := by
  have h : process_data dfEx gdfEx =
      (merge_fill dfEx gdfEx).map (assignRank (rankSorted dfEx gdfEx)) := rfl
  rw [h, merge_fill_dfEx, rankSorted_dfEx]
  rfl

lemma process_data_df5 : process_data df5 gdf5 = [row5Ex] := by
  have h1 : merge_fill df5 gdf5 = [rowFor df5 "A"] := rfl
  have h2 : rowFor df5 "A" = fillRow "A" none := rfl
  have h3 : merge_fill df5 gdf5 = [⟨"A", 0, 0, 0, 0, "Tidak Ada Data", "#94a3b8", 0⟩] := by
    rw [h1, h2, fillRow_none_eq]
  have h4 : merged_with_data df5 gdf5 = [] := by
    unfold merged_with_data
    rw [h3]
    norm_num [List.filter_cons, decide_eq_true_eq]
  have h5 : rankSorted df5 gdf5 = [] := by
    unfold rankSorted
    rw [h4]
    rfl
  have h6 : process_data df5 gdf5 =
      (merge_fill df5 gdf5).map (assignRank (rankSorted df5 gdf5)) := rfl
  rw [h6, h3, h5]
  rfl

lemma groupFlags_df9 : groupFlags df9 "Waru" = [1] := rfl

lemma aggRowFor_df9 : aggRowFor df9 "Waru" = ⟨"Waru", 1, 1, 1⟩ := by
  unfold aggRowFor
  rw [groupFlags_df9]
  norm_num

lemma fillRow_Waru_eval :
    fillRow "Waru" (some ⟨"Waru", 1, 1, 1⟩) =
      ⟨"Waru", 1, 1, 1, 100, "Tinggi", "#ef4444", 0⟩ := by
  show (⟨"Waru", 1, astypeInt 1, astypeInt 1, round2 (1 * 100),
      (categorize (round2 (1 * 100))).1, (categorize (round2 (1 * 100))).2, 0⟩ :
    SummaryRow) = _
  have hpct : round2 ((1:ℚ) * 100) = 100 := by norm_num [round2, pyRound]
  have hcat : categorize (100:ℚ) = ("Tinggi", "#ef4444") := by norm_num [categorize]
  have h1 : astypeInt (1:ℚ) = 1 := by norm_num [astypeInt]
  rw [hpct, hcat, h1]

lemma process_data_df9 : process_data df9 gdf9 = [row9Ex] := by
  have h1 : merge_fill df9 gdf9 = [rowFor df9 "Waru"] := rfl
  have h2 : rowFor df9 "Waru" = fillRow "Waru" (some (aggRowFor df9 "Waru")) := rfl
  have h3 : merge_fill df9 gdf9 = [⟨"Waru", 1, 1, 1, 100, "Tinggi", "#ef4444", 0⟩] := by
    rw [h1, h2, aggRowFor_df9, fillRow_Waru_eval]
  have h4 : merged_with_data df9 gdf9 = [⟨"Waru", 1, 1, 1, 100, "Tinggi", "#ef4444", 0⟩] := by
    unfold merged_with_data
    rw [h3]
    norm_num [List.filter_cons, decide_eq_true_eq]
  have h5 : rankSorted df9 gdf9 = [⟨"Waru", 1, 1, 1, 100, "Tinggi", "#ef4444", 0⟩] := by
    unfold rankSorted
    rw [h4]
    rfl
  have h6 : process_data df9 gdf9 =
      (merge_fill df9 gdf9).map (assignRank (rankSorted df9 gdf9)) := rfl
  rw [h6, h3, h5]
  rfl

/-- Witness for C1: the boundary and interior inputs 25 and 35 land in the
yellow and red tiers, and a concrete output row carries a pair of the policy
table. -/
theorem C1_classification_witness :
    categorize 25 = ("Sedang", "#eab308") ∧ categorize 35 = ("Tinggi", "#ef4444") ∧
    (rowCEx.category, rowCEx.color) ∈ tierTable :=
  ⟨(C1_classification.1 25).2.2.1 (by norm_num) (by norm_num),
   (C1_classification.1 35).2.2.2 (by norm_num),
   C1_classification.2.2.2 dfEx gdfEx rowCEx
     (by rw [process_data_dfEx]
         exact List.mem_cons_of_mem _ (List.mem_cons_of_mem _ (List.mem_cons_self _ _)))⟩

/-- Witness for C3 at the example inputs: the district with the greater
percentage receives the smaller rank and the district with no data receives
rank 0. -/
theorem C3_ranking_witness :
    rowBEx ∈ process_data dfEx gdfEx ∧ rowAEx ∈ process_data dfEx gdfEx ∧
    rowBEx.rank < rowAEx.rank ∧ rowCEx.rank = 0 := by
  have hA : rowAEx ∈ process_data dfEx gdfEx := by
    rw [process_data_dfEx]
    exact List.mem_cons_self _ _
  have hB : rowBEx ∈ process_data dfEx gdfEx := by
    rw [process_data_dfEx]
    exact List.mem_cons_of_mem _ (List.mem_cons_self _ _)
  have hC : rowCEx ∈ process_data dfEx gdfEx := by
    rw [process_data_dfEx]
    exact List.mem_cons_of_mem _ (List.mem_cons_of_mem _ (List.mem_cons_self _ _))
  refine ⟨hB, hA, ?_, ?_⟩
  · exact (C3_ranking dfEx gdfEx).2.1 rowBEx hB rowAEx hA
      (by norm_num [rowBEx]) (by norm_num [rowAEx]) (by norm_num [rowAEx, rowBEx])
  · exact (C3_ranking dfEx gdfEx).2.2 rowCEx hC (by norm_num [rowCEx])

/-- Witness for C5 at a record district with no geometry and a geometry
district with no records. -/
theorem C5_fill_and_drop_witness :
    row5Ex.mean_stunting = 0 ∧ row5Ex.jumlah_stunting = 0 ∧ row5Ex.jumlah_balita = 0 ∧
    (process_data df5 gdf5).filter (fun r => decide (r.WADMKC = "C")) = [] := by
  have hm : row5Ex ∈ process_data df5 gdf5 := by
    rw [process_data_df5]
    exact List.mem_cons_self _ _
  have h1 := (C5_fill_and_drop df5 gdf5).1 row5Ex hm (by decide)
  have h2 := (C5_fill_and_drop df5 gdf5).2 "C" (by decide)
  exact ⟨h1.1, h1.2.1, h1.2.2, h2⟩

/-- Witness for C6 at the example district with one case among two subjects. -/
theorem C6_rate_percent_witness :
    rowAEx.mean_stunting_percent =
      round2 ((rowAEx.jumlah_stunting : ℚ) / (rowAEx.jumlah_balita : ℚ) * 100) ∧
    0 ≤ rowAEx.mean_stunting_percent ∧ rowAEx.mean_stunting_percent ≤ 100 := by
  have hm : rowAEx ∈ process_data dfEx gdfEx := by
    rw [process_data_dfEx]
    exact List.mem_cons_self _ _
  have h := C6_rate_percent dfEx gdfEx rowAEx hm
  exact ⟨h.2.1 (by norm_num [rowAEx]), h.1.1, h.1.2⟩

/-- Witness for C8: two runs at the example inputs coincide. -/
theorem C8_deterministic_witness : process_data dfEx gdfEx = process_data dfEx gdfEx :=
  C8_deterministic dfEx gdfEx _ _ rfl rfl

/-- Witness for C9: the padded record district name joins the stripped geometry
key Waru, yielding one subject rather than a dropped row. -/
theorem C9_trim_join_witness :
    row9Ex ∈ process_data df9 gdf9 ∧ row9Ex.jumlah_balita = 1 := by
  have hm : row9Ex ∈ process_data df9 gdf9 := by
    rw [process_data_df9]
    exact List.mem_cons_self _ _
  have h := C9_trim_join df9 gdf9 row9Ex hm
  exact ⟨hm, h.trans (by decide)⟩

/-- Witness for C10 at the example district with one case among two
subjects. -/
theorem C10_case_count_bounds_witness :
    rowAEx ∈ process_data dfEx gdfEx ∧
    0 ≤ rowAEx.jumlah_stunting ∧ rowAEx.jumlah_stunting ≤ rowAEx.jumlah_balita := by
  have hm : rowAEx ∈ process_data dfEx gdfEx := by
    rw [process_data_dfEx]
    exact List.mem_cons_self _ _
  have h := C10_case_count_bounds dfEx gdfEx rowAEx hm
  exact ⟨hm, h.1, h.2.1⟩
